import Mathlib

/-!
Shallow embedding of the multi-group search core of the telegram-mcp
repository (src/tools/search.ts, src/utils/resultAggregator.ts,
src/utils/relevanceScorer.ts, src/utils/rateLimiter.ts), together with
proofs about the aggregation, error handling, relevance scoring, circuit
breaker and normalization behaviour.

Modelling conventions:
* JavaScript numbers that the code only ever uses as integers (message ids,
  timestamps, counts) are modelled as `Nat`/`Int`; fractional relevance
  scores are modelled as `ℚ` (every literal in the scorer is a decimal
  fraction, and none of the verified properties depends on binary rounding).
  The one reachable NaN of the scorer is modelled explicitly as `none` of an
  `Option ℚ` result (see `calculateRelevance`).
* Optional / possibly-`undefined` fields are `Option`s.
* `message.date` is an epoch-seconds value; the code stores
  `new Date(date*1000).toISOString()` and the aggregator sorts by
  `new Date(s).getTime()`, which recovers exactly `date*1000`; the embedding
  therefore carries the timestamp as the epoch-milliseconds integer.
* `Array.prototype.sort` is stable (ECMAScript 2019), and each comparator
  used by `ResultAggregator.sortResults` is a numeric key difference, i.e. a
  total preorder; a stable sort w.r.t. a total preorder has a unique result,
  so it is embedded as a stable insertion sort over the corresponding
  boolean relation.
* Fields of `MessageResult` that no verified claim mentions (deep link,
  media descriptor, reply reference, forward provenance, extended metadata)
  are omitted from the embedded record; they are copied through the code
  being modelled without influencing any of the properties below.
-/

namespace TelegramMcp

/-- `SortOrder` from src/types.ts. -/
inductive SortOrder where
  | relevance
  | date_desc
  | date_asc
deriving DecidableEq, Repr

/-- The claim-relevant fields of `MessageResult` (src/types.ts).
`relevanceScore` is `Option ℚ`: `none` models both an absent field and the
NaN value the scorer can produce — the only consumer, the relevance
comparator, treats `undefined`, `NaN` and `0` identically via `|| 0`. -/
structure MessageResult where
  messageId : Nat
  senderId : Int
  senderName : String
  senderUsername : Option String
  text : String
  /-- epoch milliseconds represented by the stored ISO `date` string -/
  date : Int
  groupId : String
  groupTitle : String
  groupType : String
  relevanceScore : Option ℚ
deriving DecidableEq, Repr

/-- `GroupSearchResult` (src/utils/resultAggregator.ts): `SearchResult`
restricted to one group, plus the group id and timing. -/
structure GroupSearchResult where
  success : Bool
  groupId : String
  results : List MessageResult
  totalFound : Nat
  hasMore : Bool
  error : Option String := none
  executionTime : Nat := 0
deriving DecidableEq, Repr

/-- One entry of the response's `failedGroups` list (src/types.ts). -/
structure FailedGroup where
  groupId : String
  error : String
deriving DecidableEq, Repr

/-- A JavaScript value carried in an `error: any` position: either a plain
string (what `searchMessages` pushes for a failed group result) or an
`Error`-like object with a `message` property (what a rejected promise
carries). -/
inductive JsErrorValue where
  | str (s : String)
  | errObj (message : String)
deriving DecidableEq, Repr

/-- `f.error.message || 'Unknown error'` from
`ResultAggregator.createPartialResult`: a plain string has no `message`
property (`undefined`), and an empty `message` is falsy, so both fall back
to `'Unknown error'`. -/
def jsErrorMessage : JsErrorValue → String
  | .str _ => "Unknown error"
  | .errObj m => if m = "" then "Unknown error" else m

/-- The failed-group records accumulated by `searchMessages` before they are
handed to `createPartialResult`; `error` is untyped (`any`) there. -/
structure RawFailedGroup where
  groupId : String
  error : JsErrorValue
deriving DecidableEq, Repr

/-- The externally visible `SearchResult` response shape (src/types.ts).
The TS `partial` field is a reserved word in Lean and is called
`partialFlag` here. -/
structure SearchResult where
  success : Bool
  results : List MessageResult
  totalFound : Nat
  hasMore : Bool
  error : Option String := none
  sortedBy : Option SortOrder := none
  partialFlag : Option Bool := none
  failedGroups : Option (List FailedGroup) := none
deriving DecidableEq, Repr

/-- The claim-relevant fields of `SearchParams` (src/types.ts). -/
structure SearchParams where
  query : String
  limit : Option Nat := none
  offset : Option Nat := none
  sortBy : Option SortOrder := none
deriving DecidableEq, Repr

/-- `params.limit || 10`: `undefined` and the falsy `0` both default to 10
(the host additionally validates `1 ≤ limit ≤ 100` before calling in). -/
def effLimit : Option Nat → Nat
  | some n => if n = 0 then 10 else n
  | none => 10

/-! ### Stable sorting (`ResultAggregator.sortResults`)

`Array.prototype.sort` with a numeric-difference comparator is a stable
sort w.r.t. the total preorder `a ≼ b ↔ cmp a b ≤ 0`; `stableSort` below is
the (unique) stable sort for a boolean relation `le`: an element is
inserted in front of the first already-placed element `y` with `le x y`,
so earlier-arrived elements stay in front of equal-key later ones. -/

def insertOrd (le : α → α → Bool) (x : α) : List α → List α
  | [] => [x]
  | y :: ys => if le x y then x :: y :: ys else y :: insertOrd le x ys

def stableSort (le : α → α → Bool) : List α → List α
  | [] => []
  | x :: xs => insertOrd le x (stableSort le xs)

/-- `(r.relevanceScore || 0)`: the relevance sort key. -/
def relKey (r : MessageResult) : ℚ := r.relevanceScore.getD 0

/-- `new Date(r.date).getTime()`: the date sort key (epoch ms). -/
def dateKey (r : MessageResult) : Int := r.date

/-- `ResultAggregator.sortResults`: one stable in-place sort per order.
The comparators are `(b.relevanceScore||0)-(a.relevanceScore||0)`,
`getTime(b)-getTime(a)` and `getTime(a)-getTime(b)` respectively. -/
def sortResults (results : List MessageResult) (sb : SortOrder) : List MessageResult :=
  match sb with
  | .relevance => stableSort (fun a b => decide (relKey b ≤ relKey a)) results
  | .date_desc => stableSort (fun a b => decide (dateKey b ≤ dateKey a)) results
  | .date_asc => stableSort (fun a b => decide (dateKey a ≤ dateKey b)) results

/-- The sort key selected by each order, as one numeric scale (`ℚ`; the
date keys are integers cast into it). Two results are "tied" for an order
exactly when their keys coincide. -/
def sortKey : SortOrder → MessageResult → ℚ
  | .relevance, r => relKey r
  | .date_desc, r => (dateKey r : ℚ)
  | .date_asc, r => (dateKey r : ℚ)

/-- `{ ...result, groupId: groupResult.groupId }`. -/
def withGroupId (gid : String) (r : MessageResult) : MessageResult :=
  { r with groupId := gid }

/-- `ResultAggregator.combineGroupResults`. -/
def combineGroupResults (groupResults : List GroupSearchResult)
    (globalLimit : Nat) (sb : SortOrder) : SearchResult :=
  let succ := groupResults.filter (fun g => g.success)
  let allResults := succ.flatMap (fun g => g.results.map (withGroupId g.groupId))
  let totalFound := (succ.map (fun g => g.totalFound)).sum
  let hasMore0 := succ.any (fun g => g.hasMore)
  let sorted := sortResults allResults sb
  let limited := sorted.take globalLimit
  let hasMore := hasMore0 || decide (globalLimit < sorted.length)
  { success := true
    results := limited
    totalFound := totalFound
    hasMore := hasMore
    sortedBy := some sb }

/-- `ResultAggregator.createPartialResult`: combine the successes with
`params.limit || 10` and `params.sortBy` (the callee's default parameter
fills `undefined` with `'relevance'`), then attach `partial: true` and the
mapped failed-group list. -/
def createPartialResult (successfulResults : List GroupSearchResult)
    (failedGroups : List RawFailedGroup) (params : SearchParams) : SearchResult :=
  let combined := combineGroupResults successfulResults (effLimit params.limit)
    (params.sortBy.getD .relevance)
  { combined with
    partialFlag := some true
    failedGroups := some (failedGroups.map (fun f => ⟨f.groupId, jsErrorMessage f.error⟩)) }

/-! ### Orchestrator fan-in (`searchMessages`, src/tools/search.ts 397-452) -/

/-- One settled promise of the `Promise.allSettled` join: the per-group
search task either resolved to a `GroupSearchResult` or rejected. -/
inductive SettledResult where
  | fulfilled (value : GroupSearchResult)
  | rejected (reason : JsErrorValue)
deriving DecidableEq, Repr

/-- `groupResult.error || 'Search failed'`. -/
def groupErrorString : Option String → String
  | some s => if s = "" then "Search failed" else s
  | none => "Search failed"

/-- An outcome that the fan-in counts as a failure: a rejected task or a
fulfilled one with `success: false`. -/
def isFailureOutcome : SettledResult → Bool
  | .fulfilled g => !g.success
  | .rejected _ => true

/-- An outcome counted as a success. -/
def isSuccessOutcome : SettledResult → Bool
  | .fulfilled g => g.success
  | .rejected _ => false

/-- The `settledResults.forEach` partition of `searchMessages`: each settled
outcome is paired with the group id of the same index (`groupIds[index]`,
used for the rejected case). Returns (successfulResults, failedGroups) in
arrival order. -/
def partitionSettled : List (String × SettledResult) →
    List GroupSearchResult × List RawFailedGroup
  | [] => ([], [])
  | (gid, s) :: rest =>
    let acc := partitionSettled rest
    match s with
    | .fulfilled g =>
      if g.success then (g :: acc.1, acc.2)
      else (acc.1, ⟨g.groupId, .str (groupErrorString g.error)⟩ :: acc.2)
    | .rejected reason => (acc.1, ⟨gid, reason⟩ :: acc.2)

/-- The tail of `searchMessages` after the fault-tolerant join: partition
the settled per-group outcomes, then return the all-failed error response,
the partial-result response, or the full merge. `settled.length` equals
`groupIds.length` (one task per group id), so the error message's group
count is the list length. -/
def finishSearch (settled : List (String × SettledResult))
    (params : SearchParams) : SearchResult :=
  let part := partitionSettled settled
  if part.1.length = 0 then
    { success := false
      results := []
      totalFound := 0
      hasMore := false
      error := some ("All " ++ toString settled.length ++
        " group searches failed. Check search_errors.log for details.") }
  else if 0 < part.2.length then
    createPartialResult part.1 part.2 params
  else
    combineGroupResults part.1 (effLimit params.limit) (params.sortBy.getD .relevance)

/-! ### Relevance scorer (`calculateRelevance`, src/utils/relevanceScorer.ts)

String primitives are modelled on `List Char`. `jsWS` is the whitespace
class of `String.prototype.trim` / the `\s` regex restricted to the ASCII
whitespace actually occurring in chat text. -/

def jsWS (c : Char) : Bool := c.isWhitespace

/-- `s.trim()`: drop leading and trailing whitespace. -/
def trimList (l : List Char) : List Char :=
  ((l.dropWhile jsWS).reverse.dropWhile jsWS).reverse

/-- The maximal non-whitespace runs of `l`, in order (no empty entries). -/
def wordsStep (c : Char) (acc : List (List Char) × List Char) :
    List (List Char) × List Char :=
  if jsWS c then
    match acc.2 with
    | [] => acc
    | w => (w :: acc.1, [])
  else (acc.1, c :: acc.2)

def wordsOf (l : List Char) : List (List Char) :=
  let acc := l.foldr wordsStep ([], [])
  match acc.2 with
  | [] => acc.1
  | w => w :: acc.1

/-- `s.split(/\s+/)`: each maximal whitespace run is one separator, so the
pieces are the non-whitespace runs, plus one empty piece in front when the
string starts with whitespace and one at the end when it ends with
whitespace; the empty string has no separator match and yields `[""]`. -/
def splitWS (l : List Char) : List (List Char) :=
  match l with
  | [] => [[]]
  | c :: rest =>
    let lead := if jsWS c then [([] : List Char)] else []
    let trail := if jsWS (rest.getLastD c) then [([] : List Char)] else []
    lead ++ wordsOf (c :: rest) ++ trail

/-- `t.includes(q)`: `q` occurs as a contiguous substring of `t` (the empty
string occurs in every string). -/
def strIncludes : List Char → List Char → Bool
  | t@(_ :: rest), q => q.isPrefixOf t || strIncludes rest q
  | [], q => q.isEmpty

/-- `t.indexOf(q)` for the case `t.includes(q)` (the only case the scorer
evaluates it in): index of the first occurrence of `q` in `t`. -/
def strIndexOf : List Char → List Char → Nat
  | t@(_ :: rest), q => if q.isPrefixOf t then 0 else 1 + strIndexOf rest q
  | [], _ => 0

/-- `calculateRelevance` (src/utils/relevanceScorer.ts 21-79). The result
is `Option ℚ`: `none` models IEEE NaN. The one reachable NaN source is the
position bonus `(1 - position/normalizedText.length) * 0.1`, whose
denominator is zero exactly when a whitespace-only text meets a
whitespace-only query (both normalize to `""`, and `"".includes("")` is
true); the NaN then propagates through `score += ...` and is returned by
the early `queryWords.length === 0` exit. All later divisions have
positive denominators (`queryWords.length > 0` is guarded and `split`
never returns an empty array). -/
def calculateRelevance (messageText query : String) : Option ℚ :=
  if messageText = "" ∨ query = "" then some 0
  else
    let normalizedText := trimList (messageText.data.map Char.toLower)
    let normalizedQuery := trimList (query.data.map Char.toLower)
    -- Factor 1 (+0.4) and factor 4 (position bonus, up to +0.1)
    let score1 : Option ℚ :=
      if strIncludes normalizedText normalizedQuery then
        if normalizedText.length = 0 then none
        else
          let position : ℚ := strIndexOf normalizedText normalizedQuery
          some ((0.4 : ℚ) + (1 - position / (normalizedText.length : ℚ)) * (0.1 : ℚ))
      else some 0
    let queryWords := (splitWS normalizedQuery).filter (fun w => 0 < w.length)
    let textWords := splitWS normalizedText
    if queryWords.length = 0 then
      score1
    else
      score1.map (fun s0 =>
        -- Factor 2: first word match (+0.3)
        let firstWordBonus : ℚ :=
          if 0 < textWords.length ∧
              (queryWords.any fun qw => strIncludes (textWords.headD []) qw) then 0.3
          else 0
        -- Factor 3: word frequency (`if (wordMatches > 0)` only skips
        -- adding zero, so the accumulated total is the plain sum)
        let wordMatches : List Char → Nat :=
          fun qw => (textWords.filter (fun tw => strIncludes tw qw)).length
        let matchedWords := (queryWords.filter (fun qw => 0 < wordMatches qw)).length
        let totalMatches := (queryWords.map (fun qw => wordMatches qw)).sum
        let wordMatchRatio : ℚ := (matchedWords : ℚ) / (queryWords.length : ℚ)
        let frequencyBonus : ℚ := min ((totalMatches : ℚ) / (textWords.length : ℚ)) 1
        let s2 := s0 + firstWordBonus + (wordMatchRatio * (0.15 : ℚ) + frequencyBonus * (0.05 : ℚ))
        min (max s2 0) 1)

/-! ### Circuit breaker (`TelegramCircuitBreaker`, src/utils/rateLimiter.ts)

`Date.now()` is passed in explicitly as `now`; one `execute` call samples
the clock within a few microseconds, modelled as a single instant. -/

inductive BreakerStateKind where
  | closed
  | opened
  | halfOpen
deriving DecidableEq, Repr

structure TelegramCircuitBreaker where
  state : BreakerStateKind := .closed
  failures : Nat := 0
  lastFailureTime : Int := 0
  nextAttemptTime : Int := 0
  failureThreshold : Nat := 5
  resetTimeout : Int := 60000
deriving DecidableEq, Repr

/-- The observable outcome of one `execute` call: the operation's value
returned, the operation's error rethrown, or the fast-fail error thrown
without running the operation. -/
inductive ExecResult where
  | ok
  | opError
  | breakerOpenError (msg : String)
deriving DecidableEq, Repr

def onSuccess (b : TelegramCircuitBreaker) : TelegramCircuitBreaker :=
  { b with failures := 0, state := .closed }

def onFailure (b : TelegramCircuitBreaker) (now : Int) : TelegramCircuitBreaker :=
  let b1 := { b with failures := b.failures + 1, lastFailureTime := now }
  if b.failureThreshold ≤ b1.failures then
    { b1 with state := .opened, nextAttemptTime := now + b.resetTimeout }
  else b1

/-- `TelegramCircuitBreaker.execute`. `opSucceeds` is the outcome the
guarded operation would have if invoked; the returned `Bool` records
whether the operation was actually invoked. -/
def execute (b : TelegramCircuitBreaker) (now : Int) (opSucceeds : Bool) :
    ExecResult × TelegramCircuitBreaker × Bool :=
  if b.state = .opened ∧ now < b.nextAttemptTime then
    (.breakerOpenError "Circuit breaker is OPEN", b, false)
  else
    let b1 := if b.state = .opened then { b with state := .halfOpen } else b
    if opSucceeds then (.ok, onSuccess b1, true)
    else (.opError, onFailure b1 now, true)

/-! ### Single-group normalization (`searchSingleGroup`, src/tools/search.ts)

The remote search response carries the matched messages together with the
user/chat directory (`searchResult.users`); the normalization loop builds
`userMap` from that directory once and resolves every sender from the map,
issuing no further remote call. -/

/-- `message.fromId`: a peer reference with a `userId` or a `channelId`. -/
inductive PeerRef where
  | user (userId : Int)
  | channel (channelId : Int)
deriving DecidableEq, Repr

/-- One entry of `searchResult.users`. A `none` field models a field absent
from the object (the `'field' in user` checks). -/
structure RawUser where
  id : Option Int := none
  firstName : Option String := none
  lastName : Option String := none
  title : Option String := none
  username : Option String := none
deriving DecidableEq, Repr

/-- The values of `userMap`. -/
structure UserInfo where
  name : String
  username : Option String
deriving DecidableEq, Repr

def jsTrimStr (s : String) : String := String.mk (trimList s.data)

/-- The display-name computation of the `userMap` loop. -/
def displayName (u : RawUser) : String :=
  match u.firstName with
  | some fn =>
    let ln := u.lastName.getD ""
    let n := jsTrimStr (fn ++ " " ++ ln)
    if n = "" then "Unknown User" else n
  | none =>
    match u.title with
    | some t => if t = "" then "Unknown" else t
    | none => "Unknown User"

/-- `Map.set`: a later `set` for the same key wins on lookup. -/
def mapSet (m : List (String × UserInfo)) (k : String) (v : UserInfo) :
    List (String × UserInfo) := m ++ [(k, v)]

/-- `Map.get`: the most recently set value for the key, if any. -/
def mapGet (m : List (String × UserInfo)) (k : String) : Option UserInfo :=
  (m.reverse.find? (fun p => p.1 == k)).map (fun p => p.2)

/-- The `userMap` built from `searchResult.users` (entries without an `id`
are skipped by the `'id' in user` guard). -/
def buildUserMap (users : List RawUser) : List (String × UserInfo) :=
  users.foldl
    (fun m u =>
      match u.id with
      | some uid => mapSet m (toString uid) ⟨displayName u, u.username⟩
      | none => m)
    []

/-- One raw message of the remote search response (claim-relevant fields).
`date` is epoch seconds. -/
structure RawMessage where
  id : Nat
  message : Option String := none
  fromId : Option PeerRef := none
  date : Int := 0
deriving DecidableEq, Repr

/-- The per-call constants of the formatting loop. -/
structure SingleGroupContext where
  groupId : String
  groupTitle : String
  groupType : String
  query : String
deriving DecidableEq, Repr

/-- The sender-identity block of the formatting loop: `senderId`,
`senderName`, `senderUsername` from `message.fromId` and the pre-fetched
`userMap` only (`userInfo?.name || fallback`, `userInfo?.username`). -/
def resolveSender (userMap : List (String × UserInfo)) (fromId : Option PeerRef) :
    Int × String × Option String :=
  match fromId with
  | none => (0, "Unknown", none)
  | some (.user uid) =>
    match mapGet userMap (toString uid) with
    | some info =>
      (uid, if info.name = "" then "User " ++ toString uid else info.name, info.username)
    | none => (uid, "User " ++ toString uid, none)
  | some (.channel cid) =>
    match mapGet userMap (toString cid) with
    | some info =>
      (cid, if info.name = "" then "Channel " ++ toString cid else info.name, info.username)
    | none => (cid, "Channel " ++ toString cid, none)

/-- The body of the formatting loop for one non-skipped message. -/
def formatOne (userMap : List (String × UserInfo)) (ctx : SingleGroupContext)
    (m : RawMessage) : MessageResult :=
  let s := resolveSender userMap m.fromId
  { messageId := m.id
    senderId := s.1
    senderName := s.2.1
    senderUsername := s.2.2
    text := m.message.getD ""
    date := m.date * 1000
    groupId := ctx.groupId
    groupTitle := ctx.groupTitle
    groupType := ctx.groupType
    relevanceScore := calculateRelevance (m.message.getD "") ctx.query }

/-- The skip guard `if (!('message' in msg) || !msg.message) continue`. -/
def hasText (m : RawMessage) : Bool :=
  match m.message with
  | some t => !(t == "")
  | none => false

/-- The formatting loop over `searchResult.messages`: a message failing the
`hasText` guard is skipped (`continue`), every other one is pushed. -/
def formatMessages (userMap : List (String × UserInfo)) (ctx : SingleGroupContext) :
    List RawMessage → List MessageResult
  | [] => []
  | m :: rest =>
    if hasText m then formatOne userMap ctx m :: formatMessages userMap ctx rest
    else formatMessages userMap ctx rest

/-- The remote search response as consumed by the normalization step. -/
structure RawSearchResponse where
  messages : List RawMessage
  users : List RawUser
  count : Option Nat := none
deriving DecidableEq, Repr

/-- The whole normalization stage: build the user map from the directory of
the same response, then format the messages. A pure function of the single
response — no second remote call occurs. -/
def normalizeResponse (ctx : SingleGroupContext) (resp : RawSearchResponse) :
    List MessageResult :=
  formatMessages (buildUserMap resp.users) ctx resp.messages

/-! ### Concrete inputs used by witness and counterexample theorems -/

def exMsg : MessageResult :=
  { messageId := 1, senderId := 7, senderName := "Alice", senderUsername := some "alice"
    text := "d", date := 1000, groupId := "gX", groupTitle := "Group X"
    groupType := "supergroup", relevanceScore := some 1 }

def exSuccessGroup : GroupSearchResult :=
  { success := true, groupId := "g1", results := [exMsg], totalFound := 1, hasMore := false }

def exFailGroup : GroupSearchResult :=
  { success := false, groupId := "g2", results := [], totalFound := 0, hasMore := false
    error := some "Invalid startDate: bad date" }

def exParams : SearchParams := { query := "d" }

def exSettledMixed : List (String × SettledResult) :=
  [("g1", .fulfilled exSuccessGroup), ("g2", .fulfilled exFailGroup)]

def exSettledAllFailed : List (String × SettledResult) :=
  [("g1", .fulfilled exFailGroup), ("g2", .rejected (.errObj "network down"))]

def exBreakerClosed : TelegramCircuitBreaker := { state := .closed, failures := 4 }

def exBreakerOpen : TelegramCircuitBreaker :=
  { state := .opened, failures := 5, lastFailureTime := 100, nextAttemptTime := 60100 }

def exRawUser : RawUser := { id := some 7, firstName := some "Alice", username := some "alice" }

def exRawMsgKnown : RawMessage :=
  { id := 1, message := some "d", fromId := some (.user 7), date := 1 }

def exRawMsgUnknown : RawMessage :=
  { id := 2, message := some "h", fromId := some (.channel 9), date := 2 }

def exRawMsgNoText : RawMessage := { id := 3 }

def exRawMsgEmptyText : RawMessage := { id := 4, message := some "" }

def exResp : RawSearchResponse :=
  { messages := [exRawMsgKnown, exRawMsgUnknown, exRawMsgNoText, exRawMsgEmptyText]
    users := [exRawUser] }

def exCtx : SingleGroupContext :=
  { groupId := "g1", groupTitle := "Group X", groupType := "supergroup", query := "" }

def exBreakerFresh : TelegramCircuitBreaker := {}

def exNormalizedUnknown : MessageResult :=
  formatOne (buildUserMap exResp.users) exCtx exRawMsgUnknown

/-! ## Lemmas about the stable sort -/

theorem mem_insertOrd {le : α → α → Bool} {x a : α} :
    ∀ {m : List α}, a ∈ insertOrd le x m ↔ a = x ∨ a ∈ m
  | [] => by simp [insertOrd]
  | y :: ys => by
    by_cases h : le x y = true
    · simp [insertOrd, h]
    · have h' : le x y = false := by simpa using h
      simp [insertOrd, h', mem_insertOrd (m := ys)]
      tauto

theorem length_insertOrd {le : α → α → Bool} {x : α} :
    ∀ {m : List α}, (insertOrd le x m).length = m.length + 1
  | [] => rfl
  | y :: ys => by
    by_cases h : le x y = true
    · simp [insertOrd, h]
    · simp [insertOrd, h, length_insertOrd (m := ys)]

theorem insertOrd_decomp (le : α → α → Bool) (x : α) :
    ∀ m : List α, ∃ m₁ m₂, insertOrd le x m = m₁ ++ x :: m₂ ∧ m = m₁ ++ m₂ ∧
      ∀ y ∈ m₁, le x y = false
  | [] => ⟨[], [], by simp [insertOrd]⟩
  | y :: ys => by
    by_cases h : le x y = true
    · exact ⟨[], y :: ys, by simp [insertOrd, h]⟩
    · obtain ⟨m₁, m₂, h1, h2, h3⟩ := insertOrd_decomp le x ys
      refine ⟨y :: m₁, m₂, ?_, ?_, ?_⟩
      · simp [insertOrd, h, h1]
      · simp [h2]
      · intro z hz
        rcases List.mem_cons.mp hz with rfl | hz
        · exact Bool.not_eq_true _ ▸ h
        · exact h3 z hz

theorem pairwise_insertOrd {le : α → α → Bool}
    (htot : ∀ a b, le a b = false → le b a = true)
    (htrans : ∀ a b c, le a b = true → le b c = true → le a c = true)
    (x : α) : ∀ {m : List α}, m.Pairwise (fun a b => le a b = true) →
      (insertOrd le x m).Pairwise (fun a b => le a b = true)
  | [], _ => by simp [insertOrd]
  | y :: ys, hm => by
    obtain ⟨hy, hys⟩ := List.pairwise_cons.mp hm
    by_cases h : le x y = true
    · simp only [insertOrd, h, if_true]
      refine List.pairwise_cons.mpr ⟨?_, hm⟩
      intro z hz
      rcases List.mem_cons.mp hz with rfl | hz
      · exact h
      · exact htrans x y z h (hy z hz)
    · simp only [insertOrd, h, if_false]
      refine List.pairwise_cons.mpr ⟨?_, pairwise_insertOrd htot htrans x hys⟩
      intro z hz
      rcases mem_insertOrd.mp hz with hzx | hz
      · exact hzx ▸ htot x y (Bool.not_eq_true _ ▸ h)
      · exact hy z hz

theorem filter_insertOrd {le : α → α → Bool} {p : α → Bool}
    (hp : ∀ a b, p a = true → p b = true → le a b = true) (x : α) (m : List α) :
    (insertOrd le x m).filter p = if p x then x :: m.filter p else m.filter p := by
  obtain ⟨m₁, m₂, h1, h2, h3⟩ := insertOrd_decomp le x m
  by_cases hx : p x = true
  · have hm₁ : m₁.filter p = [] := by
      rw [List.filter_eq_nil_iff]
      intro y hy hpy
      exact absurd (hp x y hx hpy) (by simp [h3 y hy])
    rw [h1, List.filter_append, hm₁, h2, List.filter_append, hm₁]
    simp [hx]
  · rw [h1, List.filter_append, h2, List.filter_append]
    simp [List.filter_cons, hx]

theorem filter_stableSort {le : α → α → Bool} {p : α → Bool}
    (hp : ∀ a b, p a = true → p b = true → le a b = true) :
    ∀ l : List α, (stableSort le l).filter p = l.filter p
  | [] => rfl
  | x :: xs => by
    rw [stableSort, filter_insertOrd hp, filter_stableSort hp xs, List.filter_cons]

theorem pairwise_stableSort {le : α → α → Bool}
    (htot : ∀ a b, le a b = false → le b a = true)
    (htrans : ∀ a b c, le a b = true → le b c = true → le a c = true) :
    ∀ l : List α, (stableSort le l).Pairwise (fun a b => le a b = true)
  | [] => List.Pairwise.nil
  | x :: xs => pairwise_insertOrd htot htrans x (pairwise_stableSort htot htrans xs)

theorem mem_stableSort {le : α → α → Bool} {a : α} :
    ∀ {l : List α}, a ∈ stableSort le l ↔ a ∈ l
  | [] => Iff.rfl
  | x :: xs => by
    simp only [stableSort, mem_insertOrd, mem_stableSort (l := xs), List.mem_cons]

theorem length_stableSort {le : α → α → Bool} :
    ∀ {l : List α}, (stableSort le l).length = l.length
  | [] => rfl
  | x :: xs => by
    simp [stableSort, length_insertOrd, length_stableSort (l := xs)]

theorem mem_sortResults {r : MessageResult} {l : List MessageResult} {s : SortOrder} :
    r ∈ sortResults l s ↔ r ∈ l := by
  cases s <;> simp [sortResults, mem_stableSort]

theorem length_sortResults {l : List MessageResult} {s : SortOrder} :
    (sortResults l s).length = l.length := by
  cases s <;> simp [sortResults, length_stableSort]

/-! ## Lemmas about the fan-in partition and the merge -/

theorem partitionSettled_snd_length :
    ∀ l : List (String × SettledResult),
      (partitionSettled l).2.length = (l.filter fun p => isFailureOutcome p.2).length
  | [] => rfl
  | (gid, s) :: rest => by
    have ih := partitionSettled_snd_length rest
    cases s with
    | fulfilled g =>
      by_cases hg : g.success = true
      · simp [partitionSettled, List.filter_cons, isFailureOutcome, hg, ih]
      · have hg' : g.success = false := by simpa using hg
        simp [partitionSettled, List.filter_cons, isFailureOutcome, hg', ih]
    | rejected reason =>
      simp [partitionSettled, List.filter_cons, isFailureOutcome, ih]

theorem partitionSettled_fst_success :
    ∀ l : List (String × SettledResult), ∀ g ∈ (partitionSettled l).1,
      g.success = true ∧ ∃ gid, (gid, SettledResult.fulfilled g) ∈ l
  | [] => by intro g hg; simp [partitionSettled] at hg
  | (gid, s) :: rest => by
    intro g hg
    cases s with
    | fulfilled g0 =>
      by_cases hg0 : g0.success = true
      · simp only [partitionSettled, hg0, if_true] at hg
        rcases List.mem_cons.mp hg with rfl | hg
        · exact ⟨hg0, gid, List.mem_cons_self _ _⟩
        · obtain ⟨h1, gid', h2⟩ := partitionSettled_fst_success rest g hg
          exact ⟨h1, gid', List.mem_cons_of_mem _ h2⟩
      · have hg0' : g0.success = false := by simpa using hg0
        simp only [partitionSettled, hg0', Bool.false_eq_true, if_false] at hg
        obtain ⟨h1, gid', h2⟩ := partitionSettled_fst_success rest g hg
        exact ⟨h1, gid', List.mem_cons_of_mem _ h2⟩
    | rejected reason =>
      simp only [partitionSettled] at hg
      obtain ⟨h1, gid', h2⟩ := partitionSettled_fst_success rest g hg
      exact ⟨h1, gid', List.mem_cons_of_mem _ h2⟩

theorem partitionSettled_fst_eq_nil :
    ∀ l : List (String × SettledResult), (∀ p ∈ l, isFailureOutcome p.2 = true) →
      (partitionSettled l).1 = []
  | [] => fun _ => rfl
  | (gid, s) :: rest => by
    intro h
    have hrest := partitionSettled_fst_eq_nil rest fun p hp => h p (List.mem_cons_of_mem _ hp)
    have hhead := h (gid, s) (List.mem_cons_self _ _)
    cases s with
    | fulfilled g =>
      have hg : g.success = false := by simpa [isFailureOutcome] using hhead
      simp [partitionSettled, hg, hrest]
    | rejected reason => simp [partitionSettled, hrest]

theorem partitionSettled_fst_ne_nil :
    ∀ l : List (String × SettledResult), (∃ p ∈ l, isSuccessOutcome p.2 = true) →
      (partitionSettled l).1 ≠ []
  | [] => by rintro ⟨p, hp, _⟩; simp at hp
  | (gid, s) :: rest => by
    rintro ⟨p, hp, hps⟩
    cases s with
    | fulfilled g =>
      by_cases hg : g.success = true
      · simp [partitionSettled, hg]
      · have hg' : g.success = false := by simpa using hg
        rcases List.mem_cons.mp hp with rfl | hp
        · simp [isSuccessOutcome, hg'] at hps
        · have := partitionSettled_fst_ne_nil rest ⟨p, hp, hps⟩
          simpa [partitionSettled, hg'] using this
    | rejected reason =>
      rcases List.mem_cons.mp hp with rfl | hp
      · simp [isSuccessOutcome] at hps
      · have := partitionSettled_fst_ne_nil rest ⟨p, hp, hps⟩
        simpa [partitionSettled] using this

theorem combine_results_length_le (gs : List GroupSearchResult) (lim : Nat)
    (sb : SortOrder) : (combineGroupResults gs lim sb).results.length ≤ lim := by
  simp only [combineGroupResults]
  exact List.length_take_le _ _

theorem combine_results_mem {gs : List GroupSearchResult} {lim : Nat} {sb : SortOrder}
    {r : MessageResult} (hr : r ∈ (combineGroupResults gs lim sb).results) :
    ∃ g, g ∈ gs ∧ g.success = true ∧ ∃ r₀ ∈ g.results, r = withGroupId g.groupId r₀ := by
  simp only [combineGroupResults] at hr
  have h1 := List.take_subset _ _ hr
  have h2 := mem_sortResults.mp h1
  rw [List.mem_flatMap] at h2
  obtain ⟨g, hg, hr2⟩ := h2
  rw [List.mem_filter] at hg
  rw [List.mem_map] at hr2
  obtain ⟨r₀, hr₀, rfl⟩ := hr2
  exact ⟨g, hg.1, hg.2, r₀, hr₀, rfl⟩

/-! ## Claim theorems: aggregation and error handling -/

/-- Claim C1: every response produced by the fan-in of `searchMessages` has
at most `params.limit || 10` results; whenever `partial` is `true` the
`failedGroups` list is non-empty; and every result entry stems from a
settled group outcome whose `success` flag was `true`. (The remaining
return paths of `searchMessages` — no groups discovered, top-level
exception — return empty result lists and no `partial` flag, so the
invariant holds there trivially.) -/
theorem C1_response_invariants (settled : List (String × SettledResult))
    (params : SearchParams) :
    (finishSearch settled params).results.length ≤ effLimit params.limit ∧
    ((finishSearch settled params).partialFlag = some true →
      ∃ fl, (finishSearch settled params).failedGroups = some fl ∧ fl ≠ []) ∧
    (∀ r ∈ (finishSearch settled params).results,
      ∃ g : GroupSearchResult, (∃ gid, (gid, SettledResult.fulfilled g) ∈ settled) ∧
        g.success = true ∧ ∃ r₀ ∈ g.results, r = withGroupId g.groupId r₀) := by
  by_cases h1 : (partitionSettled settled).1.length = 0
  · have hf : finishSearch settled params =
        { success := false, results := [], totalFound := 0, hasMore := false
          error := some ("All " ++ toString settled.length ++
            " group searches failed. Check search_errors.log for details.") } := by
      simp [finishSearch, h1]
    refine ⟨?_, ?_, ?_⟩ <;> simp [hf]
  · by_cases h2 : 0 < (partitionSettled settled).2.length
    · have hf : finishSearch settled params =
          createPartialResult (partitionSettled settled).1 (partitionSettled settled).2
            params := by
        simp [finishSearch, h1, h2]
      have hmem : ∀ r ∈ (finishSearch settled params).results,
          ∃ g : GroupSearchResult, (∃ gid, (gid, SettledResult.fulfilled g) ∈ settled) ∧
            g.success = true ∧ ∃ r₀ ∈ g.results, r = withGroupId g.groupId r₀ := by
        intro r hr
        rw [hf] at hr
        simp only [createPartialResult] at hr
        obtain ⟨g, hg, hgs, r₀, hr₀, rfl⟩ := combine_results_mem hr
        obtain ⟨_, gid, hgid⟩ := partitionSettled_fst_success settled g hg
        exact ⟨g, ⟨gid, hgid⟩, hgs, r₀, hr₀, rfl⟩
      refine ⟨?_, ?_, hmem⟩
      · rw [hf]
        simp only [createPartialResult]
        exact combine_results_length_le _ _ _
      · intro _
        rw [hf]
        simp only [createPartialResult]
        refine ⟨_, rfl, ?_⟩
        have hne : (partitionSettled settled).2 ≠ [] :=
          List.ne_nil_of_length_pos h2
        simpa using hne
    · have hf : finishSearch settled params =
          combineGroupResults (partitionSettled settled).1 (effLimit params.limit)
            (params.sortBy.getD .relevance) := by
        simp [finishSearch, h1, h2]
      refine ⟨?_, ?_, ?_⟩
      · rw [hf]; exact combine_results_length_le _ _ _
      · intro hp
        rw [hf] at hp
        simp [combineGroupResults] at hp
      · intro r hr
        rw [hf] at hr
        obtain ⟨g, hg, hgs, r₀, hr₀, rfl⟩ := combine_results_mem hr
        obtain ⟨_, gid, hgid⟩ := partitionSettled_fst_success settled g hg
        exact ⟨g, ⟨gid, hgid⟩, hgs, r₀, hr₀, rfl⟩

/-- Claim C2: when at least one settled group outcome is a success and at
least one is a failure, the fan-in returns `success = true`,
`partial = true`, and a `failedGroups` list whose length is exactly the
number of failed outcomes. -/
theorem C2_mixed_outcome_partial (settled : List (String × SettledResult))
    (params : SearchParams)
    (hs : ∃ p ∈ settled, isSuccessOutcome p.2 = true)
    (hf : ∃ p ∈ settled, isFailureOutcome p.2 = true) :
    (finishSearch settled params).success = true ∧
    (finishSearch settled params).partialFlag = some true ∧
    ∃ fl, (finishSearch settled params).failedGroups = some fl ∧
      fl.length = (settled.filter fun p => isFailureOutcome p.2).length := by
  have h1 : ¬(partitionSettled settled).1.length = 0 := by
    intro h
    exact partitionSettled_fst_ne_nil settled hs (List.length_eq_zero.mp h)
  have h2 : 0 < (partitionSettled settled).2.length := by
    rw [partitionSettled_snd_length]
    obtain ⟨p, hp, hps⟩ := hf
    exact List.length_pos.mpr (List.ne_nil_of_mem (List.mem_filter.mpr ⟨hp, hps⟩))
  have hfin : finishSearch settled params =
      createPartialResult (partitionSettled settled).1 (partitionSettled settled).2
        params := by
    simp [finishSearch, h1, h2]
  rw [hfin]
  refine ⟨?_, rfl, _, rfl, ?_⟩
  · simp [createPartialResult, combineGroupResults]
  · simp [partitionSettled_snd_length]

/-- Claim C4: when every settled group outcome is a failure, the fan-in
returns `success = false`, an empty result list, and a top-level error
naming the number of group searches that failed (all of them, i.e.
`settled.length`). -/
theorem C4_all_failed_error (settled : List (String × SettledResult))
    (params : SearchParams)
    (h : ∀ p ∈ settled, isFailureOutcome p.2 = true) :
    (finishSearch settled params).success = false ∧
    (finishSearch settled params).results = [] ∧
    (finishSearch settled params).error =
      some ("All " ++ toString settled.length ++
        " group searches failed. Check search_errors.log for details.") ∧
    settled.length = (settled.filter fun p => isFailureOutcome p.2).length := by
  have h1 : (partitionSettled settled).1.length = 0 := by
    rw [partitionSettled_fst_eq_nil settled h]
    rfl
  have hfin : (finishSearch settled params).success = false ∧
      (finishSearch settled params).results = [] ∧
      (finishSearch settled params).error =
        some ("All " ++ toString settled.length ++
          " group searches failed. Check search_errors.log for details.") := by
    refine ⟨?_, ?_, ?_⟩ <;> simp [finishSearch, h1]
  exact ⟨hfin.1, hfin.2.1, hfin.2.2, by rw [List.filter_eq_self.mpr h]⟩

/-- Claim C5: for successful group outcomes, the merge returns `totalFound`
equal to the sum of the per-group `totalFound` values, and `hasMore` equal
to the OR of the per-group `hasMore` flags, additionally forced to `true`
when the flattened result sequence is longer than the limit. -/
theorem C5_merge_totals (gs : List GroupSearchResult) (lim : Nat) (sb : SortOrder)
    (h : ∀ g ∈ gs, g.success = true) :
    (combineGroupResults gs lim sb).totalFound = (gs.map fun g => g.totalFound).sum ∧
    (combineGroupResults gs lim sb).hasMore =
      ((gs.any fun g => g.hasMore) ||
        decide (lim < (gs.flatMap fun g => g.results.map (withGroupId g.groupId)).length)) := by
  have hfilter : gs.filter (fun g => g.success) = gs := List.filter_eq_self.mpr h
  constructor
  · simp only [combineGroupResults, hfilter]
  · simp only [combineGroupResults, hfilter, length_sortResults]

/-- Claim C6: `sortResults` orders the flattened sequence by the requested
order — descending `relevanceScore || 0` for `relevance`, descending
timestamp for `date_desc`, ascending timestamp for `date_asc` — and the
sort is stable: for every key value, the results carrying that key appear
in the sorted output in exactly their source-arrival order. -/
theorem C6_sortResults_ordered_and_stable (l : List MessageResult) (s : SortOrder) :
    ((s = .relevance → (sortResults l s).Pairwise fun a b => relKey b ≤ relKey a) ∧
     (s = .date_desc → (sortResults l s).Pairwise fun a b => dateKey b ≤ dateKey a) ∧
     (s = .date_asc → (sortResults l s).Pairwise fun a b => dateKey a ≤ dateKey b)) ∧
    ∀ k : ℚ, (sortResults l s).filter (fun r => decide (sortKey s r = k)) =
      l.filter fun r => decide (sortKey s r = k) := by
  refine ⟨⟨?_, ?_, ?_⟩, ?_⟩
  · rintro rfl
    have hp := @pairwise_stableSort MessageResult
      (fun a b : MessageResult => decide (relKey b ≤ relKey a))
      (fun a b hab => decide_eq_true (le_of_not_le (by simpa using hab)))
      (fun a b c h1 h2 =>
        decide_eq_true (le_trans (of_decide_eq_true h2) (of_decide_eq_true h1))) l
    exact hp.imp fun h => of_decide_eq_true h
  · rintro rfl
    have hp := @pairwise_stableSort MessageResult
      (fun a b : MessageResult => decide (dateKey b ≤ dateKey a))
      (fun a b hab => decide_eq_true (le_of_not_le (by simpa using hab)))
      (fun a b c h1 h2 =>
        decide_eq_true (le_trans (of_decide_eq_true h2) (of_decide_eq_true h1))) l
    exact hp.imp fun h => of_decide_eq_true h
  · rintro rfl
    have hp := @pairwise_stableSort MessageResult
      (fun a b : MessageResult => decide (dateKey a ≤ dateKey b))
      (fun a b hab => decide_eq_true (le_of_not_le (by simpa using hab)))
      (fun a b c h1 h2 =>
        decide_eq_true (le_trans (of_decide_eq_true h1) (of_decide_eq_true h2))) l
    exact hp.imp fun h => of_decide_eq_true h
  · intro k
    cases s with
    | relevance =>
      simp only [sortResults, sortKey]
      exact filter_stableSort
        (fun a b ha hb => decide_eq_true (by
          rw [of_decide_eq_true ha, of_decide_eq_true hb])) l
    | date_desc =>
      simp only [sortResults, sortKey]
      refine filter_stableSort (fun a b ha hb => decide_eq_true ?_) l
      have hab : (dateKey a : ℚ) = dateKey b := by
        rw [of_decide_eq_true ha, of_decide_eq_true hb]
      have : dateKey a = dateKey b := by exact_mod_cast hab
      rw [this]
    | date_asc =>
      simp only [sortResults, sortKey]
      refine filter_stableSort (fun a b ha hb => decide_eq_true ?_) l
      have hab : (dateKey a : ℚ) = dateKey b := by
        rw [of_decide_eq_true ha, of_decide_eq_true hb]
      have : dateKey a = dateKey b := by exact_mod_cast hab
      rw [this]

/-! ## Claim theorems: partial-failure error messages (C3) -/

/-- Claim C3 (refuted; code bug): the failed-group error message is NOT
passed through verbatim. `searchMessages` stores the per-group error as a
plain string (`groupResult.error || 'Search failed'`), but
`createPartialResult` reads `f.error.message`, which is `undefined` on a
string, so the entry in the response degrades to `'Unknown error'`.
Evaluated here on one successful group and one failed group whose failure
outcome carries the error description `"Invalid startDate: bad date"`. -/
theorem C3_error_message_not_verbatim :
    exFailGroup.error = some "Invalid startDate: bad date" ∧
    (finishSearch exSettledMixed exParams).failedGroups =
      some [{ groupId := "g2", error := "Unknown error" }] := by
  exact ⟨rfl, rfl⟩

/-! ## Claim theorems: relevance scorer (C7) -/

/-- Claim C7 (refuted; code bug): `calculateRelevance` does not always land
in `[0,1]`. For a non-empty whitespace-only text and query (both truthy,
so the empty-input guard does not fire) the normalized strings are `""`,
`"".includes("")` holds, and the position bonus divides by
`normalizedText.length = 0`: the `0/0` produces NaN (modelled `none`),
which the early `queryWords.length === 0` return hands back to the caller
— contradicting the function's own contract "Score between 0 and 1", the
in-range part of the claim, and the "substring match scores > 0" part
(`" "` contains the exact query `" "`). -/
theorem C7_relevance_nan : calculateRelevance " " " " = none := by
  rfl

/-! ## Claim theorems: circuit breaker (C8) -/

/-- Every breaker state that `execute` leaves in the `open` state has
`failures ≥ failureThreshold` (the state only becomes `open` inside
`onFailure` under that very condition, and `failures` is not reset before
the next success). Justifies the last hypothesis of the C8 theorem. -/
theorem breaker_open_failures_ge (b : TelegramCircuitBreaker) (now : Int) (op : Bool)
    (hb : b.state = .opened → b.failureThreshold ≤ b.failures) :
    (execute b now op).2.1.state = .opened →
      b.failureThreshold ≤ (execute b now op).2.1.failures := by
  intro h
  by_cases hfast : b.state = .opened ∧ now < b.nextAttemptTime
  · simp only [execute, hfast, if_true]
    exact hb hfast.1
  · simp only [execute, hfast, if_false] at h ⊢
    cases op with
    | true => simp [onSuccess] at h
    | false =>
      by_cases hop : b.state = .opened
      · by_cases hthr : b.failureThreshold ≤ b.failures + 1
        · simp [onFailure, hop, hthr] at h ⊢
        · simp [onFailure, hop, hthr] at h
      · by_cases hthr : b.failureThreshold ≤ b.failures + 1
        · simp [onFailure, hop, hthr] at h ⊢
        · simp [onFailure, hop, hthr] at h

/-- Claim C8: the circuit breaker follows the specified state machine:
(1) a failure that brings the count up to the threshold moves a closed
breaker to `open` with a cool-down of `resetTimeout` from now; (1') below
the threshold it stays closed; (2) while `open` and before
`nextAttemptTime`, `execute` fails fast with the distinct
`'Circuit breaker is OPEN'` error, leaves the state untouched and never
invokes the guarded operation; (3)/(4) once the reset timeout has elapsed
a single trial runs (the operation is invoked exactly once): its success
closes the breaker and clears the failure count, its failure re-opens it
with a restarted cool-down (`failureThreshold ≤ failures` holds in every
reachable open state by `breaker_open_failures_ge`). -/
theorem C8_breaker_state_machine (b : TelegramCircuitBreaker) (now : Int) (op : Bool) :
    (b.state = .closed → b.failureThreshold ≤ b.failures + 1 →
      (execute b now false).2.1.state = .opened ∧
      (execute b now false).2.1.nextAttemptTime = now + b.resetTimeout) ∧
    (b.state = .closed → b.failures + 1 < b.failureThreshold →
      (execute b now false).2.1.state = .closed) ∧
    (b.state = .opened → now < b.nextAttemptTime →
      execute b now op = (.breakerOpenError "Circuit breaker is OPEN", b, false)) ∧
    (b.state = .opened → b.nextAttemptTime ≤ now →
      (execute b now true).1 = .ok ∧ (execute b now true).2.2 = true ∧
      (execute b now true).2.1.state = .closed ∧ (execute b now true).2.1.failures = 0) ∧
    (b.state = .opened → b.nextAttemptTime ≤ now → b.failureThreshold ≤ b.failures →
      (execute b now false).1 = .opError ∧ (execute b now false).2.2 = true ∧
      (execute b now false).2.1.state = .opened ∧
      (execute b now false).2.1.nextAttemptTime = now + b.resetTimeout) := by
  refine ⟨?_, ?_, ?_, ?_, ?_⟩
  · intro h1 h2
    constructor <;> simp [execute, h1, onFailure, h2]
  · intro h1 h2
    have h2' : ¬b.failureThreshold ≤ b.failures + 1 := Nat.not_le.mpr h2
    simp [execute, h1, onFailure, h2']
  · intro h1 h2
    simp [execute, h1, h2]
  · intro h1 h2
    have h3 : ¬now < b.nextAttemptTime := not_lt.mpr h2
    refine ⟨?_, ?_, ?_, ?_⟩ <;> simp [execute, h1, h3, onSuccess]
  · intro h1 h2 hthr
    have h3 : ¬now < b.nextAttemptTime := not_lt.mpr h2
    have h4 : b.failureThreshold ≤ b.failures + 1 := le_trans hthr (Nat.le_succ _)
    refine ⟨?_, ?_, ?_, ?_⟩ <;> simp [execute, h1, h3, onFailure, h4]

/-! ## Claim theorems: normalization (C9, C10) -/

theorem mem_formatMessages {um : List (String × UserInfo)} {ctx : SingleGroupContext} :
    ∀ {msgs : List RawMessage} {r : MessageResult}, r ∈ formatMessages um ctx msgs →
      ∃ m ∈ msgs, hasText m = true ∧ r = formatOne um ctx m
  | [], r => by intro h; simp [formatMessages] at h
  | m :: rest, r => by
    intro h
    by_cases hm : hasText m = true
    · rw [formatMessages, if_pos hm] at h
      rcases List.mem_cons.mp h with rfl | h
      · exact ⟨m, List.mem_cons_self _ _, hm, rfl⟩
      · obtain ⟨m', hm', h1, h2⟩ := mem_formatMessages h
        exact ⟨m', List.mem_cons_of_mem _ hm', h1, h2⟩
    · rw [formatMessages, if_neg hm] at h
      obtain ⟨m', hm', h1, h2⟩ := mem_formatMessages h
      exact ⟨m', List.mem_cons_of_mem _ hm', h1, h2⟩

/-- Claim C9: each normalized result's sender identity is a function of the
pre-fetched user/sender directory of the same remote response and the raw
message's `fromId` alone (the normalization stage is a pure function of the
single response; no per-message lookup call exists), and when the sender is
absent from the directory the fallback display name is `'User <id>'`
resp. `'Channel <id>'` with no username. -/
theorem C9_sender_from_directory (ctx : SingleGroupContext) (resp : RawSearchResponse)
    (r : MessageResult) (hr : r ∈ normalizeResponse ctx resp) :
    ∃ m ∈ resp.messages,
      (r.senderId, r.senderName, r.senderUsername) =
        resolveSender (buildUserMap resp.users) m.fromId ∧
      (∀ uid : Int, m.fromId = some (.user uid) →
        mapGet (buildUserMap resp.users) (toString uid) = none →
        r.senderName = "User " ++ toString uid ∧ r.senderUsername = none) ∧
      (∀ cid : Int, m.fromId = some (.channel cid) →
        mapGet (buildUserMap resp.users) (toString cid) = none →
        r.senderName = "Channel " ++ toString cid ∧ r.senderUsername = none) := by
  obtain ⟨m, hm, hht, rfl⟩ := mem_formatMessages hr
  refine ⟨m, hm, rfl, ?_, ?_⟩
  · intro uid hfid hget
    constructor <;> simp [formatOne, resolveSender, hfid, hget]
  · intro cid hfid hget
    constructor <;> simp [formatOne, resolveSender, hfid, hget]

/-- Claim C10: normalization skips exactly the raw messages whose text
field is absent or empty — the produced list is the filter-map over the
text-bearing messages — and consequently every produced `MessageResult`
has non-empty text. (The per-group result list, its length, and hence
every count and merged response are built from this list only.) -/
theorem C10_skip_textless (um : List (String × UserInfo)) (ctx : SingleGroupContext)
    (msgs : List RawMessage) :
    formatMessages um ctx msgs = (msgs.filter hasText).map (formatOne um ctx) ∧
    ∀ r ∈ formatMessages um ctx msgs, r.text ≠ "" := by
  have heq : ∀ ms : List RawMessage,
      formatMessages um ctx ms = (ms.filter hasText).map (formatOne um ctx) := by
    intro ms
    induction ms with
    | nil => rfl
    | cons m rest ih =>
      by_cases hm : hasText m = true
      · simp [formatMessages, List.filter_cons, hm, ih]
      · simp [formatMessages, List.filter_cons, hm, ih]
  refine ⟨heq msgs, ?_⟩
  intro r hr
  obtain ⟨m, _, hht, rfl⟩ := mem_formatMessages hr
  cases hmm : m.message with
  | none => simp [hasText, hmm] at hht
  | some t =>
    have ht : t ≠ "" := by simpa [hasText, hmm] using hht
    simp [formatOne, hmm, ht]

/-! ## Witness theorems -/

theorem C1_response_invariants_witness :
    (finishSearch exSettledMixed exParams).results.length ≤ effLimit exParams.limit ∧
    (∃ fl, (finishSearch exSettledMixed exParams).failedGroups = some fl ∧ fl ≠ []) ∧
    (∃ g : GroupSearchResult, (∃ gid, (gid, SettledResult.fulfilled g) ∈ exSettledMixed) ∧
      g.success = true ∧ ∃ r₀ ∈ g.results,
        withGroupId "g1" exMsg = withGroupId g.groupId r₀) :=
  ⟨(C1_response_invariants exSettledMixed exParams).1,
   (C1_response_invariants exSettledMixed exParams).2.1 (by decide),
   (C1_response_invariants exSettledMixed exParams).2.2 (withGroupId "g1" exMsg) (by decide)⟩

theorem C2_mixed_outcome_partial_witness :
    (finishSearch exSettledMixed exParams).success = true ∧
    (finishSearch exSettledMixed exParams).partialFlag = some true ∧
    ∃ fl, (finishSearch exSettledMixed exParams).failedGroups = some fl ∧
      fl.length = (exSettledMixed.filter fun p => isFailureOutcome p.2).length :=
  C2_mixed_outcome_partial exSettledMixed exParams (by decide) (by decide)

theorem C4_all_failed_error_witness :
    (finishSearch exSettledAllFailed exParams).success = false ∧
    (finishSearch exSettledAllFailed exParams).results = [] ∧
    (finishSearch exSettledAllFailed exParams).error =
      some ("All " ++ toString exSettledAllFailed.length ++
        " group searches failed. Check search_errors.log for details.") ∧
    exSettledAllFailed.length =
      (exSettledAllFailed.filter fun p => isFailureOutcome p.2).length :=
  C4_all_failed_error exSettledAllFailed exParams (by decide)

theorem C5_merge_totals_witness :
    (combineGroupResults [exSuccessGroup] 10 .relevance).totalFound =
      ([exSuccessGroup].map fun g => g.totalFound).sum ∧
    (combineGroupResults [exSuccessGroup] 10 .relevance).hasMore =
      (([exSuccessGroup].any fun g => g.hasMore) ||
        decide (10 < ([exSuccessGroup].flatMap
          fun g => g.results.map (withGroupId g.groupId)).length)) :=
  C5_merge_totals [exSuccessGroup] 10 .relevance (by decide)

theorem C6_sortResults_ordered_and_stable_witness :
    ((sortResults [exMsg] .relevance).Pairwise fun a b => relKey b ≤ relKey a) ∧
    (sortResults [exMsg] .relevance).filter
        (fun r => decide (sortKey .relevance r = 1)) =
      [exMsg].filter (fun r => decide (sortKey .relevance r = 1)) :=
  ⟨(C6_sortResults_ordered_and_stable [exMsg] .relevance).1.1 rfl,
   (C6_sortResults_ordered_and_stable [exMsg] .relevance).2 1⟩

theorem C8_breaker_state_machine_witness :
    ((execute exBreakerClosed 100 false).2.1.state = .opened ∧
     (execute exBreakerClosed 100 false).2.1.nextAttemptTime =
       100 + exBreakerClosed.resetTimeout) ∧
    (execute exBreakerFresh 100 false).2.1.state = .closed ∧
    execute exBreakerOpen 200 true =
      (.breakerOpenError "Circuit breaker is OPEN", exBreakerOpen, false) ∧
    ((execute exBreakerOpen 70000 true).1 = .ok ∧
     (execute exBreakerOpen 70000 true).2.2 = true ∧
     (execute exBreakerOpen 70000 true).2.1.state = .closed ∧
     (execute exBreakerOpen 70000 true).2.1.failures = 0) ∧
    ((execute exBreakerOpen 70000 false).1 = .opError ∧
     (execute exBreakerOpen 70000 false).2.2 = true ∧
     (execute exBreakerOpen 70000 false).2.1.state = .opened ∧
     (execute exBreakerOpen 70000 false).2.1.nextAttemptTime =
       70000 + exBreakerOpen.resetTimeout) :=
  ⟨(C8_breaker_state_machine exBreakerClosed 100 false).1 (by decide) (by decide),
   (C8_breaker_state_machine exBreakerFresh 100 false).2.1 (by decide) (by decide),
   (C8_breaker_state_machine exBreakerOpen 200 true).2.2.1 (by decide) (by decide),
   (C8_breaker_state_machine exBreakerOpen 70000 true).2.2.2.1 (by decide) (by decide),
   (C8_breaker_state_machine exBreakerOpen 70000 false).2.2.2.2 (by decide) (by decide)
     (by decide)⟩

theorem C9_sender_from_directory_witness :
    ∃ m ∈ exResp.messages,
      (exNormalizedUnknown.senderId, exNormalizedUnknown.senderName,
        exNormalizedUnknown.senderUsername) =
        resolveSender (buildUserMap exResp.users) m.fromId ∧
      (∀ uid : Int, m.fromId = some (.user uid) →
        mapGet (buildUserMap exResp.users) (toString uid) = none →
        exNormalizedUnknown.senderName = "User " ++ toString uid ∧
        exNormalizedUnknown.senderUsername = none) ∧
      (∀ cid : Int, m.fromId = some (.channel cid) →
        mapGet (buildUserMap exResp.users) (toString cid) = none →
        exNormalizedUnknown.senderName = "Channel " ++ toString cid ∧
        exNormalizedUnknown.senderUsername = none) :=
  C9_sender_from_directory exCtx exResp exNormalizedUnknown (by decide)

theorem C10_skip_textless_witness :
    formatMessages (buildUserMap exResp.users) exCtx exResp.messages =
      (exResp.messages.filter hasText).map (formatOne (buildUserMap exResp.users) exCtx) ∧
    (formatOne (buildUserMap exResp.users) exCtx exRawMsgKnown).text ≠ "" :=
  ⟨(C10_skip_textless (buildUserMap exResp.users) exCtx exResp.messages).1,
   (C10_skip_textless (buildUserMap exResp.users) exCtx exResp.messages).2
     (formatOne (buildUserMap exResp.users) exCtx exRawMsgKnown) (by decide)⟩

end TelegramMcp
